import Mathlib

/-
Verification development for the page-blob upload core of
`azurerm/internal/services/storage/blobs.go`.

The Go source is shallowly embedded below:
int64 sizes and offsets become `Int` (every value reached by the program
here is non-negative, where Go's `%` agrees with `Int.emod`), the source
file becomes an explicit model (`FileModel`), remote calls become entries
of an explicit trace (`RemoteOp`), and the goroutine pool is modelled both
by a drain order (`sched`, the order in which the workers dequeue the
seeded channel; faithful executions drain a permutation of the seeded
list) and, for the termination question, by a small-step relation
(`PoolStep`).
-/

/-- `minPageSize int64 = 4 * 1024` from the source. -/
def minPageSize : Int := 4 * 1024

/-- `maxPageSize int64 = 4 * 1024 * 1024` from the source. -/
def maxPageSize : Int := 4 * 1024 * 1024

/-- Model of the opened source file (`os.File` used through `io.ReaderAt`):
its size as reported by `Stat`, its byte content, and whether `ReadAt` at a
given offset fails with an error other than `io.EOF`. -/
structure FileModel where
  size : Int
  byte : Int → Nat
  readErr : Int → Bool

/-- The byte visible at offset `o`: file content inside `[0, size)`, zero
outside (`ReadAt` zero-fills the tail of the buffer past end-of-file). -/
def byteAt (f : FileModel) (o : Int) : Nat :=
  if 0 ≤ o ∧ o < f.size then f.byte o else 0

/-- Helper for `bytes.Equal(pageBuf, emptyPage)`: the `n` bytes of the page
starting at `i` (checked from the top index down; `&&` is commutative so
this equals the sequential comparison) are all zero. -/
def pageAllZeroAux (f : FileModel) (i : Int) : Nat → Bool
  | 0 => true
  | n + 1 => (byteAt f (i + (n : Int)) == 0) && pageAllZeroAux f i n

/-- `bytes.Equal(pageBuf, emptyPage)` for the page-unit buffer read at
offset `i`. -/
def pageAllZero (f : FileModel) (i : Int) : Bool :=
  pageAllZeroAux f i minPageSize.toNat

/-- The Go `byteRange{offset, length int64}` local type; a
`storageBlobPage` carries the same two numbers, since its
`io.NewSectionReader(file, offset, length)` is determined by them
(`section.Size() = length`). -/
structure byteRange where
  offset : Int
  length : Int
deriving DecidableEq

/-- The blob-size padding computed at the top of `storageBlobPageSplit`:
`blobSize = fileSize`, rounded up to the next multiple of `minPageSize`
when not already a multiple. -/
def paddedBlobSize (fileSize : Int) : Int :=
  if fileSize % minPageSize ≠ 0 then
    fileSize + (minPageSize - fileSize % minPageSize)
  else fileSize

/-- The scan loop of `storageBlobPageSplit`:
`for i := 0; i < blobSize; i += minPageSize` with the running
`currentRange` accumulation. `fuel` counts the remaining iterations
(the caller passes `blobSize / minPageSize`, exact since `blobSize` is a
multiple of `minPageSize`). A non-EOF `ReadAt` failure returns the failing
offset as the error. Emitted ranges are produced in loop order. -/
def splitLoop (f : FileModel) (blobSize : Int) : Nat → Int → byteRange → Except Int (List byteRange)
  | 0, _, _ => Except.ok []
  | fuel + 1, i, cur =>
    if f.readErr i then Except.error i
    else if pageAllZero f i then
      match splitLoop f blobSize fuel (i + minPageSize) { offset := i + minPageSize, length := 0 } with
      | Except.error e => Except.error e
      | Except.ok rest => Except.ok (if cur.length ≠ 0 then cur :: rest else rest)
    else
      if cur.length + minPageSize = maxPageSize ∨ cur.offset + (cur.length + minPageSize) = blobSize then
        match splitLoop f blobSize fuel (i + minPageSize) { offset := i + minPageSize, length := 0 } with
        | Except.error e => Except.error e
        | Except.ok rest => Except.ok ({ offset := cur.offset, length := cur.length + minPageSize } :: rest)
      else
        splitLoop f blobSize fuel (i + minPageSize) { offset := cur.offset, length := cur.length + minPageSize }

/-- `storageBlobPageSplit(file, fileSize)`: pad the size, scan every page
unit, and return the non-empty ranges (each final `storageBlobPage` is its
range's offset and section length, so we return the ranges themselves). -/
def storageBlobPageSplit (f : FileModel) (fileSize : Int) : Except Int (List byteRange) :=
  splitLoop f (paddedBlobSize fileSize) ((paddedBlobSize fileSize) / minPageSize).toNat 0
    { offset := 0, length := 0 }

/-- A position `p` is covered by one of the returned ranges. -/
def covered (rs : List byteRange) (p : Int) : Prop :=
  ∃ r ∈ rs, r.offset ≤ p ∧ p < r.offset + r.length

/-- Total length of a range list. -/
def sumLen : List byteRange → Int
  | [] => 0
  | r :: rs => r.length + sumLen rs

/-- Total size of the non-zero page units among the `fuel` page units
starting at `i`. -/
def countNonzero (f : FileModel) (i : Int) : Nat → Int
  | 0 => 0
  | fuel + 1 =>
    (if pageAllZero f i then 0 else minPageSize) + countNonzero f (i + minPageSize) fuel

/-- Well-formedness of one returned range with respect to the padded blob
size and a lower bound `lo` on offsets. -/
def rangeWF (blobSize lo : Int) (r : byteRange) : Prop :=
  lo ≤ r.offset ∧ minPageSize ∣ r.offset ∧ minPageSize ∣ r.length ∧
    0 < r.length ∧ r.length ≤ maxPageSize ∧ r.offset + r.length ≤ blobSize

/-- The remote calls issued through the `blobs.Client`. -/
inductive RemoteOp where
  | copyAndWait
  | putBlockBlob
  | putBlockBlobFromFile
  | putPageBlob (contentLength : Int)
  | putPageUpdate (startByte endByte contentLength : Int)
deriving DecidableEq

/-- Failure oracles for one worker iteration: a non-EOF error from
`page.section.Read`, and an error from `Client.PutPageUpdate`. -/
structure WorkerEnv where
  sectionReadErr : byteRange → Option String
  putPageUpdateErr : byteRange → Option String

/-- `start := page.offset` in `blobPageUploadWorker`. -/
def workerStart (page : byteRange) : Int := page.offset

/-- `end := page.offset + page.section.Size() - 1; if end > blobSize-1 { end = blobSize-1 }`. -/
def workerEnd (blobSize : Int) (page : byteRange) : Int :=
  if page.offset + page.length - 1 > blobSize - 1 then blobSize - 1
  else page.offset + page.length - 1

/-- `size := end - start + 1`. -/
def workerSize (blobSize : Int) (page : byteRange) : Int :=
  workerEnd blobSize page - workerStart page + 1

/-- One iteration of the worker loop body for a dequeued page: the remote
calls it issues and the error (if any) it sends on the error channel. On
either failure branch the worker `continue`s to the next page. -/
def processPage (env : WorkerEnv) (blobSize : Int) (page : byteRange) :
    List RemoteOp × Option String :=
  match env.sectionReadErr page with
  | some e => ([], some ("Error reading source file at offset " ++ toString page.offset ++ ": " ++ e))
  | none =>
    match env.putPageUpdateErr page with
    | some e =>
      ([RemoteOp.putPageUpdate (workerStart page) (workerEnd blobSize page) (workerSize blobSize page)],
        some ("Error writing page at offset " ++ toString page.offset ++ ": " ++ e))
    | none =>
      ([RemoteOp.putPageUpdate (workerStart page) (workerEnd blobSize page) (workerSize blobSize page)], none)

/-- The worker pool draining the seeded channel in order `ps` (the
interleaving of all workers): accumulated remote calls, errors in the
order they are sent on the channel, and the number of `wg.Done()` signals
(exactly one per dequeued page, on every path). -/
def runPages (env : WorkerEnv) (blobSize : Int) : List byteRange → List RemoteOp × List String × Nat
  | [] => ([], [], 0)
  | p :: ps =>
    ((processPage env blobSize p).1 ++ (runPages env blobSize ps).1,
      (match (processPage env blobSize p).2 with
        | some e => e :: (runPages env blobSize ps).2.1
        | none => (runPages env blobSize ps).2.1),
      (runPages env blobSize ps).2.2 + 1)

/-- `pageUploadFromSource(file, fileSize)`: split into pages, seed the
channel, run the pool (drain order `sched`; a faithful execution has
`sched` a permutation of the seeded list), wait, and surface the first
error received on the error channel, if any. Returns the remote-call trace
and the result. -/
def pageUploadFromSource (env : WorkerEnv) (f : FileModel) (fileSize : Int)
    (sched : List byteRange) : List RemoteOp × Except String Unit :=
  match storageBlobPageSplit f fileSize with
  | Except.error off =>
    ([], Except.error ("Error splitting source file into pages: Could not read chunk at " ++ toString off))
  | Except.ok _pageList =>
    match (runPages env fileSize sched).2.1 with
    | [] => ((runPages env fileSize sched).1, Except.ok ())
    | e :: _ =>
      ((runPages env fileSize sched).1,
        Except.error ("Error while uploading source file: " ++ e))

/-- The `BlobUpload` struct (the `Client` field is replaced by the
explicit environments below). -/
structure BlobUpload where
  accountName : String
  blobName : String
  containerName : String
  blobType : String
  contentType : String
  metaData : List (String × String)
  parallelism : Int
  size : Int
  source : String
  sourceUri : String

/-- Failure oracles for the remaining collaborator calls: the `blobs.Client`
operations, `os.Open` and `file.Stat`, plus the opened file and the pool
drain order. -/
structure RemoteEnv where
  copyErr : Option String
  putBlockBlobErr : Option String
  putBlockBlobFromFileErr : Option String
  putPageBlobErr : Option String
  openErr : Option String
  statErr : Option String
  file : FileModel
  worker : WorkerEnv
  sched : List byteRange

/-- `BlobUpload.copy`. -/
def copyFn (env : RemoteEnv) : List RemoteOp × Except String Unit :=
  ([RemoteOp.copyAndWait],
    match env.copyErr with
    | some e => Except.error ("Error copy/waiting: " ++ e)
    | none => Except.ok ())

/-- `BlobUpload.createEmptyBlockBlob`. -/
def createEmptyBlockBlob (env : RemoteEnv) : List RemoteOp × Except String Unit :=
  ([RemoteOp.putBlockBlob],
    match env.putBlockBlobErr with
    | some e => Except.error ("Error PutBlockBlob: " ++ e)
    | none => Except.ok ())

/-- `BlobUpload.uploadBlockBlob`. -/
def uploadBlockBlob (env : RemoteEnv) : List RemoteOp × Except String Unit :=
  match env.openErr with
  | some e => ([], Except.error ("Error opening: " ++ e))
  | none =>
    ([RemoteOp.putBlockBlobFromFile],
      match env.putBlockBlobFromFileErr with
      | some e => Except.error ("Error PutBlockBlobFromFile: " ++ e)
      | none => Except.ok ())

/-- `BlobUpload.createEmptyPageBlob`: rejects `Size == 0` before calling
`PutPageBlob` with `BlobContentLengthBytes = int64(sbu.Size)`. -/
def createEmptyPageBlob (sbu : BlobUpload) (env : RemoteEnv) : List RemoteOp × Except String Unit :=
  if sbu.size = 0 then ([], Except.error "`size` cannot be zero for a page blob")
  else
    ([RemoteOp.putPageBlob sbu.size],
      match env.putPageBlobErr with
      | some e => Except.error ("Error PutPageBlob: " ++ e)
      | none => Except.ok ())

/-- `BlobUpload.uploadPageBlob`: rejects `Size != 0` before opening the
file; then opens, stats, calls `PutPageBlob` with
`BlobContentLengthBytes = fileSize` (the stat size, unpadded), and runs
`pageUploadFromSource`. -/
def uploadPageBlob (sbu : BlobUpload) (env : RemoteEnv) : List RemoteOp × Except String Unit :=
  if sbu.size ≠ 0 then ([], Except.error "`size` cannot be set for an uploaded page blob")
  else
    match env.openErr with
    | some e => ([], Except.error ("Error opening source file for upload: " ++ e))
    | none =>
      match env.statErr with
      | some e => ([], Except.error ("Could not stat file: " ++ e))
      | none =>
        match env.putPageBlobErr with
        | some e => ([RemoteOp.putPageBlob env.file.size], Except.error ("Error PutPageBlob: " ++ e))
        | none =>
          match pageUploadFromSource env.worker env.file env.file.size env.sched with
          | (ops, Except.ok _) => (RemoteOp.putPageBlob env.file.size :: ops, Except.ok ())
          | (ops, Except.error e) =>
            (RemoteOp.putPageBlob env.file.size :: ops,
              Except.error ("Error creating storage blob on Azure: " ++ e))

/-- `strings.ToLower` on the ASCII blob-type strings used by the dispatch, modelled
on the string's character list (`String.toLower` maps the same function over the
string). -/
def toLowerStr (s : String) : String := String.mk (s.data.map Char.toLower)

/-- `BlobUpload.Create`: the dispatch over `SourceUri`, lowercased
`BlobType`, and `Source`. -/
def Create (sbu : BlobUpload) (env : RemoteEnv) : List RemoteOp × Except String Unit :=
  if sbu.sourceUri ≠ "" then copyFn env
  else
    if toLowerStr sbu.blobType = "block" then
      if sbu.source ≠ "" then uploadBlockBlob env else createEmptyBlockBlob env
    else if toLowerStr sbu.blobType = "page" then
      if sbu.source ≠ "" then uploadPageBlob sbu env else createEmptyPageBlob sbu env
    else ([], Except.error ("Unsupported Blob Type: " ++ toLowerStr sbu.blobType))

/-- `workerCount := sbu.Parallelism * runtime.NumCPU()`. -/
def workerCount (parallelism numCPU : Nat) : Nat := parallelism * numCPU

/-- State of the worker pool: the unread part of the `pages` channel, the
number of running worker goroutines, and the number of `wg.Done()` calls
so far. -/
structure PoolState where
  queue : List byteRange
  running : Nat
  done : Nat
deriving DecidableEq

/-- One scheduler step of the pool: a running worker dequeues the next
page, processes it and signals `wg.Done()`; or a running worker observes
the closed empty channel and exits. A step requires a running worker. -/
inductive PoolStep : PoolState → PoolState → Prop
  | work (p : byteRange) (rest : List byteRange) (r d : Nat) :
      PoolStep { queue := p :: rest, running := r + 1, done := d }
        { queue := rest, running := r + 1, done := d + 1 }
  | exitWorker (r d : Nat) :
      PoolStep { queue := [], running := r + 1, done := d }
        { queue := [], running := r, done := d }

/-- Reachability of pool states. -/
def poolReachable : PoolState → PoolState → Prop :=
  Relation.ReflTransGen PoolStep

/-- The state of the pool right after `pageUploadFromSource` seeds the
channel, closes it, launches the workers and calls `wg.Wait()`. -/
def initPool (pageList : List byteRange) (workers : Nat) : PoolState :=
  { queue := pageList, running := workers, done := 0 }

/-- `wg.Wait()` returns exactly when the `wg.Add(len(pageList))` counter
has been fully discharged by `Done` signals. -/
def waitSatisfied (pageList : List byteRange) (s : PoolState) : Prop :=
  s.done = pageList.length

/-- The concrete file of the spec scenario: 10,000 bytes, bytes in
`[4096, 8191]` all zero, all other bytes non-zero, no read errors. -/
def fScenario : FileModel :=
  { size := 10000
    byte := fun o => if 4096 ≤ o ∧ o < 8192 then 0 else 1
    readErr := fun _ => false }

/-- A file whose very first `ReadAt` fails with a non-EOF error. -/
def fReadErr : FileModel :=
  { size := 5000, byte := fun _ => 1, readErr := fun o => o == 0 }

/-- A worker environment in which every collaborator call succeeds. -/
def okWorkerEnv : WorkerEnv :=
  { sectionReadErr := fun _ => none, putPageUpdateErr := fun _ => none }

/-- The `BlobUpload` of the scenario: a page blob uploaded from a source
file, with no explicit size. -/
def sbuScenario : BlobUpload :=
  { accountName := "acc", blobName := "blob", containerName := "cont"
    blobType := "page", contentType := "application/octet-stream"
    metaData := [], parallelism := 1, size := 0
    source := "source.vhd", sourceUri := "" }

/-- An environment for the scenario in which every collaborator call
succeeds and the pool drains the two scanned ranges in order. -/
def envScenario : RemoteEnv :=
  { copyErr := none, putBlockBlobErr := none, putBlockBlobFromFileErr := none
    putPageBlobErr := none, openErr := none, statErr := none
    file := fScenario, worker := okWorkerEnv
    sched := [{ offset := 0, length := 4096 }, { offset := 8192, length := 4096 }] }

deriving instance DecidableEq for Except

theorem minPageSize_eq : minPageSize = 4096 := by decide

theorem maxPageSize_eq : maxPageSize = 4194304 := by decide

theorem minPageSize_toNat : minPageSize.toNat = 4096 := by decide

theorem pageAllZeroAux_eq_true_iff (f : FileModel) (i : Int) :
    ∀ n : Nat, pageAllZeroAux f i n = true ↔ ∀ j : Nat, j < n → byteAt f (i + (j : Int)) = 0 := by
  intro n
  induction n with
  | zero => simp [pageAllZeroAux]
  | succ n ih =>
    simp only [pageAllZeroAux, Bool.and_eq_true, beq_iff_eq, ih]
    constructor
    · rintro ⟨h1, h2⟩ j hj
      rcases Nat.lt_succ_iff_lt_or_eq.mp hj with h | h
      · exact h2 j h
      · subst h; exact h1
    · intro h
      exact ⟨h n (Nat.lt_succ_self n), fun j hj => h j (Nat.lt_succ_of_lt hj)⟩

theorem pageAllZero_eq_true_iff (f : FileModel) (i : Int) :
    pageAllZero f i = true ↔ ∀ j : Int, 0 ≤ j → j < minPageSize → byteAt f (i + j) = 0 := by
  rw [pageAllZero, pageAllZeroAux_eq_true_iff, minPageSize_toNat, minPageSize_eq]
  constructor
  · intro h j hj0 hjlt
    have hc : (j.toNat : Int) = j := Int.toNat_of_nonneg hj0
    have hlt : j.toNat < 4096 := by omega
    have := h j.toNat hlt
    rwa [hc] at this
  · intro h j hj
    exact h (j : Int) (Int.ofNat_nonneg j) (by omega)

theorem pageAllZero_eq_false_iff (f : FileModel) (i : Int) :
    pageAllZero f i = false ↔ ∃ j : Int, 0 ≤ j ∧ j < minPageSize ∧ byteAt f (i + j) ≠ 0 := by
  rw [← Bool.not_eq_true, pageAllZero_eq_true_iff]
  push_neg
  constructor
  · rintro ⟨j, hj0, hjlt, hne⟩
    exact ⟨j, hj0, hjlt, hne⟩
  · rintro ⟨j, hj0, hjlt, hne⟩
    exact ⟨j, hj0, hjlt, hne⟩

theorem splitLoop_succ (f : FileModel) (blobSize : Int) (fuel : Nat) (i : Int) (cur : byteRange) :
    splitLoop f blobSize (fuel + 1) i cur =
      (if f.readErr i then Except.error i
      else if pageAllZero f i then
        match splitLoop f blobSize fuel (i + minPageSize) { offset := i + minPageSize, length := 0 } with
        | Except.error e => Except.error e
        | Except.ok rest => Except.ok (if cur.length ≠ 0 then cur :: rest else rest)
      else
        if cur.length + minPageSize = maxPageSize ∨ cur.offset + (cur.length + minPageSize) = blobSize then
          match splitLoop f blobSize fuel (i + minPageSize) { offset := i + minPageSize, length := 0 } with
          | Except.error e => Except.error e
          | Except.ok rest => Except.ok ({ offset := cur.offset, length := cur.length + minPageSize } :: rest)
        else
          splitLoop f blobSize fuel (i + minPageSize) { offset := cur.offset, length := cur.length + minPageSize }) := rfl

theorem fScenario_readErr (o : Int) : fScenario.readErr o = false := rfl

theorem fScenario_pageZero_at_0 : pageAllZero fScenario 0 = false := by
  rw [pageAllZero_eq_false_iff]
  refine ⟨0, le_refl 0, by rw [minPageSize_eq]; norm_num, ?_⟩
  norm_num [byteAt, fScenario]

theorem fScenario_pageZero_at_4096 : pageAllZero fScenario 4096 = true := by
  rw [pageAllZero_eq_true_iff]
  intro j hj0 hjlt
  rw [minPageSize_eq] at hjlt
  simp only [byteAt, fScenario]
  split
  · split
    · rfl
    · next h => exact absurd ⟨by omega, by omega⟩ h
  · next h => exact absurd ⟨by omega, by omega⟩ h

theorem fScenario_pageZero_at_8192 : pageAllZero fScenario 8192 = false := by
  rw [pageAllZero_eq_false_iff]
  refine ⟨0, le_refl 0, by rw [minPageSize_eq]; norm_num, ?_⟩
  norm_num [byteAt, fScenario]

theorem paddedBlobSize_10000 : paddedBlobSize 10000 = 12288 := by
  rw [paddedBlobSize, minPageSize_eq]
  norm_num

theorem splitLoop_zero (f : FileModel) (blobSize : Int) (i : Int) (cur : byteRange) :
    splitLoop f blobSize 0 i cur = Except.ok [] := rfl


theorem splitLoop_succ_mk (f : FileModel) (blobSize : Int) (fuel : Nat) (i o l : Int) :
    splitLoop f blobSize (fuel + 1) i { offset := o, length := l } =
      (if f.readErr i then Except.error i
      else if pageAllZero f i then
        match splitLoop f blobSize fuel (i + minPageSize) { offset := i + minPageSize, length := 0 } with
        | Except.error e => Except.error e
        | Except.ok rest =>
          Except.ok (if l ≠ 0 then { offset := o, length := l } :: rest else rest)
      else
        if l + minPageSize = maxPageSize ∨ o + (l + minPageSize) = blobSize then
          match splitLoop f blobSize fuel (i + minPageSize) { offset := i + minPageSize, length := 0 } with
          | Except.error e => Except.error e
          | Except.ok rest => Except.ok ({ offset := o, length := l + minPageSize } :: rest)
        else
          splitLoop f blobSize fuel (i + minPageSize) { offset := o, length := l + minPageSize }) := rfl

theorem splitFScenarioStep3 : splitLoop fScenario 12288 1 8192 { offset := 8192, length := 0 } =
    Except.ok [{ offset := 8192, length := 4096 }] := by
  rw [show (1 : Nat) = 0 + 1 from rfl, splitLoop_succ_mk, fScenario_readErr,
    fScenario_pageZero_at_8192]
  rw [minPageSize_eq, maxPageSize_eq, splitLoop_zero, splitLoop_zero]
  norm_num

theorem splitFScenarioStep2 : splitLoop fScenario 12288 2 4096 { offset := 0, length := 4096 } =
    Except.ok [{ offset := 0, length := 4096 }, { offset := 8192, length := 4096 }] := by
  rw [show (2 : Nat) = 1 + 1 from rfl, splitLoop_succ_mk, fScenario_readErr,
    fScenario_pageZero_at_4096]
  rw [minPageSize_eq]
  rw [show (4096 : Int) + 4096 = 8192 from by norm_num]
  rw [splitFScenarioStep3]
  norm_num

theorem splitFScenarioStep1 : splitLoop fScenario 12288 3 0 { offset := 0, length := 0 } =
    Except.ok [{ offset := 0, length := 4096 }, { offset := 8192, length := 4096 }] := by
  rw [show (3 : Nat) = 2 + 1 from rfl, splitLoop_succ_mk, fScenario_readErr,
    fScenario_pageZero_at_0]
  rw [minPageSize_eq, maxPageSize_eq]
  rw [if_neg (by decide : ¬(false = true)), if_neg (by decide : ¬(false = true))]
  split
  · next h => exact absurd h (by norm_num)
  · rw [show (0 : Int) + 4096 = 4096 from by norm_num]
    exact splitFScenarioStep2

theorem split_fScenario :
    storageBlobPageSplit fScenario 10000 =
      Except.ok [{ offset := 0, length := 4096 }, { offset := 8192, length := 4096 }] := by
  rw [storageBlobPageSplit, paddedBlobSize_10000, minPageSize_eq]
  rw [show ((12288 : Int) / 4096).toNat = 3 from rfl]
  exact splitFScenarioStep1

theorem countNonzero_zero (f : FileModel) (i : Int) : countNonzero f i 0 = 0 := rfl

theorem countNonzero_succ (f : FileModel) (i : Int) (fuel : Nat) :
    countNonzero f i (fuel + 1) =
      (if pageAllZero f i then 0 else minPageSize) + countNonzero f (i + minPageSize) fuel := rfl

theorem sumLen_nil : sumLen [] = 0 := rfl

theorem sumLen_cons (r : byteRange) (rs : List byteRange) :
    sumLen (r :: rs) = r.length + sumLen rs := rfl

theorem sumLen_nonneg : ∀ rs : List byteRange, (∀ r ∈ rs, 0 < r.length) → 0 ≤ sumLen rs := by
  intro rs
  induction rs with
  | nil => intro _; simp [sumLen_nil]
  | cons r rs ih =>
    intro h
    rw [sumLen_cons]
    have h1 := h r (List.mem_cons_self r rs)
    have h2 := ih (fun x hx => h x (List.mem_cons_of_mem r hx))
    omega

theorem sumLen_eq_zero_iff_nil (rs : List byteRange) (hpos : ∀ r ∈ rs, 0 < r.length) :
    sumLen rs = 0 → rs = [] := by
  intro h
  cases rs with
  | nil => rfl
  | cons r rs =>
    rw [sumLen_cons] at h
    have h1 := hpos r (List.mem_cons_self r rs)
    have h2 := sumLen_nonneg rs (fun x hx => hpos x (List.mem_cons_of_mem r hx))
    omega

theorem splitLoop_spec (f : FileModel) (blobSize : Int) :
    ∀ (fuel : Nat) (i o l : Int),
    blobSize = i + (fuel : Int) * minPageSize →
    minPageSize ∣ i →
    minPageSize ∣ o →
    minPageSize ∣ l →
    o + l = i →
    0 ≤ l →
    l < maxPageSize →
    (fuel = 0 → l = 0) →
    (∀ p, minPageSize ∣ p → o ≤ p → p < i → pageAllZero f p = false) →
    (∀ p, minPageSize ∣ p → i ≤ p → p < blobSize → f.readErr p = false) →
    ∃ rs, splitLoop f blobSize fuel i { offset := o, length := l } = Except.ok rs ∧
      (∀ r ∈ rs, rangeWF blobSize o r) ∧
      rs.Pairwise (fun a b => a.offset + a.length ≤ b.offset) ∧
      sumLen rs = l + countNonzero f i fuel ∧
      (∀ p, minPageSize ∣ p → o ≤ p → p < blobSize → (covered rs p ↔ pageAllZero f p = false)) ∧
      ((∀ p, minPageSize ∣ p → i ≤ p → p < blobSize → pageAllZero f p = false) →
        ∀ r ∈ rs, r.length = maxPageSize ∨ r.offset + r.length = blobSize) := by
  intro fuel
  induction fuel with
  | zero =>
    intro i o l hblob hi ho hl hol hl0 hlmax hend hnz herr
    have hl0' : l = 0 := hend rfl
    have hoi : o = i := by omega
    have hbi : blobSize = i := by
      rw [minPageSize_eq] at hblob; push_cast at hblob; omega
    refine ⟨[], rfl, by simp, List.Pairwise.nil,
      by rw [sumLen_nil, countNonzero_zero]; omega, ?_, by simp⟩
    intro p hp hop hpb
    exact absurd (lt_of_le_of_lt hop hpb) (by omega)
  | succ fuel ih =>
    intro i o l hblob hi ho hl hol hl0 hlmax hend hnz herr
    simp only [minPageSize_eq, maxPageSize_eq] at hblob hi ho hl hlmax hnz herr ih ⊢
    push_cast at hblob
    have hilt : i < blobSize := by omega
    have hre : f.readErr i = false := herr i hi (le_refl i) hilt
    rcases (Bool.eq_false_or_eq_true (pageAllZero f i)).symm with hz | hz
    · -- non-zero page at offset i
      by_cases hemit : l + 4096 = 4194304 ∨ o + (l + 4096) = blobSize
      · -- the accumulated range closes here
        obtain ⟨rs', hok', hwf', hpw', hsum', hcov', hfull'⟩ :=
          ih (i + 4096) (i + 4096) 0 (by omega) (by omega) (by omega) (by omega)
            (by omega) (by omega) (by omega) (fun _ => rfl)
            (fun p hp h1 h2 => absurd h1 (by omega))
            (fun p hp h1 h2 => herr p hp (by omega) h2)
        have hstep : splitLoop f blobSize (fuel + 1) i { offset := o, length := l } =
            Except.ok ({ offset := o, length := l + 4096 } :: rs') := by
          rw [splitLoop_succ_mk, minPageSize_eq, maxPageSize_eq, hre, hz]
          simp only [Bool.false_eq_true, if_false]
          split
          · rw [hok']
          · next hcond => exact absurd hemit hcond
        refine ⟨{ offset := o, length := l + 4096 } :: rs', hstep, ?_, ?_, ?_, ?_, ?_⟩
        · intro r hr
          rcases List.mem_cons.mp hr with h | h
          · subst h
            refine ⟨le_refl o, ?_, ?_, ?_, ?_, ?_⟩
            · show minPageSize ∣ o
              rw [minPageSize_eq]; omega
            · show minPageSize ∣ (l + 4096)
              rw [minPageSize_eq]; omega
            · show (0 : Int) < l + 4096
              omega
            · show l + 4096 ≤ maxPageSize
              rw [maxPageSize_eq]; omega
            · show o + (l + 4096) ≤ blobSize
              omega
          · obtain ⟨h1, h2⟩ := hwf' r h
            exact ⟨by omega, h2⟩
        · refine List.Pairwise.cons ?_ hpw'
          intro b hb
          have hb1 := (hwf' b hb).1
          show o + (l + 4096) ≤ b.offset
          omega
        · rw [sumLen_cons, countNonzero_succ, hz, minPageSize_eq]
          simp only [Bool.false_eq_true, if_false]
          show l + 4096 + sumLen rs' = _
          omega
        · intro p hp hop hpb
          have htri : p < i ∨ p = i ∨ i + 4096 ≤ p := by omega
          rcases htri with hcase | hcase | hcase
          · constructor
            · intro _; exact hnz p hp hop hcase
            · intro _
              exact ⟨{ offset := o, length := l + 4096 }, List.mem_cons_self _ _, hop,
                by show p < o + (l + 4096); omega⟩
          · subst hcase
            constructor
            · intro _; exact hz
            · intro _
              exact ⟨{ offset := o, length := l + 4096 }, List.mem_cons_self _ _, hop,
                by show p < o + (l + 4096); omega⟩
          · have hiff := hcov' p hp (by omega) hpb
            constructor
            · intro hcv
              obtain ⟨r, hr, hr1, hr2⟩ := hcv
              rcases List.mem_cons.mp hr with h | h
              · subst h
                have hr1' : o ≤ p := hr1
                have hr2' : p < o + (l + 4096) := hr2
                omega
              · exact hiff.mp ⟨r, h, hr1, hr2⟩
            · intro hnzp
              obtain ⟨r, hr, hr1, hr2⟩ := hiff.mpr hnzp
              exact ⟨r, List.mem_cons_of_mem _ hr, hr1, hr2⟩
        · intro hall r hr
          rcases List.mem_cons.mp hr with h | h
          · subst h
            show l + 4096 = 4194304 ∨ o + (l + 4096) = blobSize
            exact hemit
          · exact hfull' (fun p hp h1 h2 => hall p hp (by omega) h2) r h
      · -- the accumulated range stays open
        push_neg at hemit
        obtain ⟨rs', hok', hwf', hpw', hsum', hcov', hfull'⟩ :=
          ih (i + 4096) o (l + 4096) (by omega) (by omega) (by omega) (by omega)
            (by omega) (by omega) (by omega)
            (fun h0 => by
              rw [h0] at hblob
              push_cast at hblob
              exact absurd (by omega : o + (l + 4096) = blobSize) hemit.2)
            (fun p hp h1 h2 => by
              by_cases hpi : p < i
              · exact hnz p hp h1 hpi
              · have hpe : p = i := by omega
                rw [hpe]; exact hz)
            (fun p hp h1 h2 => herr p hp (by omega) h2)
        have hstep : splitLoop f blobSize (fuel + 1) i { offset := o, length := l } =
            Except.ok rs' := by
          rw [splitLoop_succ_mk, minPageSize_eq, maxPageSize_eq, hre, hz]
          simp only [Bool.false_eq_true, if_false]
          split
          · next hcond =>
            rcases hcond with hc | hc
            · exact absurd hc hemit.1
            · exact absurd hc hemit.2
          · exact hok'
        refine ⟨rs', hstep, hwf', hpw', ?_, hcov',
          fun hall => hfull' (fun p hp h1 h2 => hall p hp (by omega) h2)⟩
        rw [countNonzero_succ, hz, minPageSize_eq]
        simp only [Bool.false_eq_true, if_false]
        omega
    · -- all-zero page at offset i
      obtain ⟨rs', hok', hwf', hpw', hsum', hcov', hfull'⟩ :=
        ih (i + 4096) (i + 4096) 0 (by omega) (by omega) (by omega) (by omega)
          (by omega) (by omega) (by omega) (fun _ => rfl)
          (fun p hp h1 h2 => absurd h1 (by omega))
          (fun p hp h1 h2 => herr p hp (by omega) h2)
      have hstep : splitLoop f blobSize (fuel + 1) i { offset := o, length := l } =
          Except.ok (if l ≠ 0 then { offset := o, length := l } :: rs' else rs') := by
        rw [splitLoop_succ_mk, minPageSize_eq, maxPageSize_eq, hre, hz]
        simp only [Bool.false_eq_true, if_false, if_true]
        rw [hok']
      by_cases hc : l = 0
      · rw [if_neg (by omega : ¬l ≠ 0)] at hstep
        have hoi : o = i := by omega
        refine ⟨rs', hstep, ?_, hpw', ?_, ?_, ?_⟩
        · intro r hr
          obtain ⟨h1, h2⟩ := hwf' r hr
          exact ⟨by omega, h2⟩
        · rw [countNonzero_succ, hz, minPageSize_eq, if_pos rfl]
          omega
        · intro p hp hop hpb
          have htri : p = i ∨ i + 4096 ≤ p := by omega
          rcases htri with hcase | hcase
          · subst hcase
            constructor
            · intro hcv
              obtain ⟨r, hr, hr1, hr2⟩ := hcv
              have := (hwf' r hr).1
              omega
            · intro hnzp
              rw [hz] at hnzp
              cases hnzp
          · exact hcov' p hp (by omega) hpb
        · intro hall
          have hx := hall i hi (le_refl i) hilt
          rw [hz] at hx
          cases hx
      · rw [if_pos hc] at hstep
        refine ⟨{ offset := o, length := l } :: rs', hstep, ?_, ?_, ?_, ?_, ?_⟩
        · intro r hr
          rcases List.mem_cons.mp hr with h | h
          · subst h
            refine ⟨le_refl o, ?_, ?_, ?_, ?_, ?_⟩
            · show minPageSize ∣ o
              rw [minPageSize_eq]; omega
            · show minPageSize ∣ l
              rw [minPageSize_eq]; omega
            · show (0 : Int) < l
              omega
            · show l ≤ maxPageSize
              rw [maxPageSize_eq]; omega
            · show o + l ≤ blobSize
              omega
          · obtain ⟨h1, h2⟩ := hwf' r h
            exact ⟨by omega, h2⟩
        · refine List.Pairwise.cons ?_ hpw'
          intro b hb
          have hb1 := (hwf' b hb).1
          show o + l ≤ b.offset
          omega
        · rw [sumLen_cons, countNonzero_succ, hz, minPageSize_eq, if_pos rfl]
          show l + sumLen rs' = _
          omega
        · intro p hp hop hpb
          have htri : p < i ∨ p = i ∨ i + 4096 ≤ p := by omega
          rcases htri with hcase | hcase | hcase
          · constructor
            · intro _; exact hnz p hp hop hcase
            · intro _
              exact ⟨{ offset := o, length := l }, List.mem_cons_self _ _, hop,
                by show p < o + l; omega⟩
          · subst hcase
            constructor
            · intro hcv
              obtain ⟨r, hr, hr1, hr2⟩ := hcv
              rcases List.mem_cons.mp hr with h | h
              · subst h
                have hr1' : o ≤ p := hr1
                have hr2' : p < o + l := hr2
                omega
              · have := (hwf' r h).1
                omega
            · intro hnzp
              rw [hz] at hnzp
              cases hnzp
          · have hiff := hcov' p hp (by omega) hpb
            constructor
            · intro hcv
              obtain ⟨r, hr, hr1, hr2⟩ := hcv
              rcases List.mem_cons.mp hr with h | h
              · subst h
                have hr1' : o ≤ p := hr1
                have hr2' : p < o + l := hr2
                omega
              · exact hiff.mp ⟨r, h, hr1, hr2⟩
            · intro hnzp
              obtain ⟨r, hr, hr1, hr2⟩ := hiff.mpr hnzp
              exact ⟨r, List.mem_cons_of_mem _ hr, hr1, hr2⟩
        · intro hall
          have hx := hall i hi (le_refl i) hilt
          rw [hz] at hx
          cases hx

theorem paddedBlobSize_dvd (fileSize : Int) : minPageSize ∣ paddedBlobSize fileSize := by
  rw [paddedBlobSize, minPageSize_eq]
  split <;> omega

theorem paddedBlobSize_nonneg (fileSize : Int) (h : 0 ≤ fileSize) :
    0 ≤ paddedBlobSize fileSize := by
  rw [paddedBlobSize, minPageSize_eq]
  split <;> omega

theorem padded_fuel (fileSize : Int) (h : 0 ≤ fileSize) :
    ((paddedBlobSize fileSize / minPageSize).toNat : Int) * minPageSize =
      paddedBlobSize fileSize := by
  have h1 := paddedBlobSize_dvd fileSize
  have h2 := paddedBlobSize_nonneg fileSize h
  rw [minPageSize_eq] at h1 ⊢
  have h3 : 0 ≤ paddedBlobSize fileSize / 4096 := Int.ediv_nonneg h2 (by norm_num)
  rw [Int.toNat_of_nonneg h3]
  exact Int.ediv_mul_cancel h1

theorem storageBlobPageSplit_spec (f : FileModel) (fileSize : Int) (hsz : 0 ≤ fileSize)
    (herr : ∀ p, f.readErr p = false) :
    ∃ rs, storageBlobPageSplit f fileSize = Except.ok rs ∧
      (∀ r ∈ rs, rangeWF (paddedBlobSize fileSize) 0 r) ∧
      rs.Pairwise (fun a b => a.offset + a.length ≤ b.offset) ∧
      sumLen rs = countNonzero f 0 (paddedBlobSize fileSize / minPageSize).toNat ∧
      (∀ p, minPageSize ∣ p → 0 ≤ p → p < paddedBlobSize fileSize →
        (covered rs p ↔ pageAllZero f p = false)) ∧
      ((∀ p, minPageSize ∣ p → 0 ≤ p → p < paddedBlobSize fileSize → pageAllZero f p = false) →
        ∀ r ∈ rs, r.length = maxPageSize ∨ r.offset + r.length = paddedBlobSize fileSize) := by
  obtain ⟨rs, h1, h2, h3, h4, h5, h6⟩ :=
    splitLoop_spec f (paddedBlobSize fileSize) (paddedBlobSize fileSize / minPageSize).toNat 0 0 0
      (by have hx := padded_fuel fileSize hsz; omega)
      (by rw [minPageSize_eq]; omega) (by rw [minPageSize_eq]; omega)
      (by rw [minPageSize_eq]; omega) (by omega) (le_refl 0)
      (by rw [maxPageSize_eq]; norm_num) (fun _ => rfl)
      (fun p hp h1 h2 => absurd (lt_of_le_of_lt h1 h2) (lt_irrefl 0))
      (fun p _ _ _ => herr p)
  exact ⟨rs, h1, h2, h3, by omega, h5, h6⟩

theorem countNonzero_all_zero (f : FileModel) :
    ∀ (fuel : Nat) (i : Int), minPageSize ∣ i →
    (∀ p, minPageSize ∣ p → i ≤ p → p < i + (fuel : Int) * minPageSize → pageAllZero f p = true) →
    countNonzero f i fuel = 0 := by
  intro fuel
  induction fuel with
  | zero => intro i _ _; exact countNonzero_zero f i
  | succ fuel ih =>
    intro i hi hall
    rw [countNonzero_succ, minPageSize_eq] at *
    rw [hall i hi (le_refl i) (by push_cast; omega), if_pos rfl]
    rw [ih (i + 4096) (by omega) (fun p hp hp1 hp2 => hall p hp (by omega) (by push_cast at hp2 ⊢; omega))]
    omega

theorem countNonzero_all_nonzero (f : FileModel) :
    ∀ (fuel : Nat) (i : Int), minPageSize ∣ i →
    (∀ p, minPageSize ∣ p → i ≤ p → p < i + (fuel : Int) * minPageSize → pageAllZero f p = false) →
    countNonzero f i fuel = (fuel : Int) * minPageSize := by
  intro fuel
  induction fuel with
  | zero => intro i _ _; rw [countNonzero_zero]; push_cast; omega
  | succ fuel ih =>
    intro i hi hall
    rw [countNonzero_succ, minPageSize_eq] at *
    rw [hall i hi (le_refl i) (by push_cast; omega)]
    simp only [Bool.false_eq_true, if_false]
    rw [ih (i + 4096) (by omega) (fun p hp hp1 hp2 => hall p hp (by omega) (by push_cast at hp2 ⊢; omega))]
    push_cast
    ring

theorem splitLoop_error (f : FileModel) (blobSize : Int) :
    ∀ (fuel : Nat) (i j : Int) (cur : byteRange),
    blobSize = i + (fuel : Int) * minPageSize →
    minPageSize ∣ i → minPageSize ∣ j →
    i ≤ j → j < blobSize →
    f.readErr j = true →
    (∀ p, minPageSize ∣ p → i ≤ p → p < j → f.readErr p = false) →
    splitLoop f blobSize fuel i cur = Except.error j := by
  intro fuel
  induction fuel with
  | zero =>
    intro i j cur hblob hi hj hij hjb hfail hbefore
    rw [minPageSize_eq] at hblob
    push_cast at hblob
    exact absurd hjb (by omega)
  | succ fuel ih =>
    intro i j cur hblob hi hj hij hjb hfail hbefore
    simp only [minPageSize_eq] at hblob hi hj hbefore ih
    push_cast at hblob
    obtain ⟨o, l⟩ := cur
    by_cases hji : j = i
    · subst hji
      rw [splitLoop_succ_mk, hfail]
      rfl
    · have hii : i + 4096 ≤ j := by omega
      have hrei : f.readErr i = false := hbefore i hi (le_refl i) (by omega)
      rw [splitLoop_succ_mk, minPageSize_eq, maxPageSize_eq, hrei]
      simp only [Bool.false_eq_true, if_false]
      have hrec : ∀ cur2 : byteRange, splitLoop f blobSize fuel (i + 4096) cur2 = Except.error j :=
        fun cur2 => ih (i + 4096) j cur2 (by omega) (by omega) hj hii hjb hfail
          (fun p hp h1 h2 => hbefore p hp (by omega) h2)
      rw [hrec, hrec]
      split
      · rfl
      · split
        · rfl
        · rfl

theorem runPages_nil (env : WorkerEnv) (blobSize : Int) :
    runPages env blobSize [] = ([], [], 0) := rfl

theorem runPages_cons (env : WorkerEnv) (blobSize : Int) (p : byteRange) (ps : List byteRange) :
    runPages env blobSize (p :: ps) =
      ((processPage env blobSize p).1 ++ (runPages env blobSize ps).1,
        (match (processPage env blobSize p).2 with
          | some e => e :: (runPages env blobSize ps).2.1
          | none => (runPages env blobSize ps).2.1),
        (runPages env blobSize ps).2.2 + 1) := rfl

theorem runPages_done (env : WorkerEnv) (blobSize : Int) :
    ∀ ps : List byteRange, (runPages env blobSize ps).2.2 = ps.length := by
  intro ps
  induction ps with
  | nil => rfl
  | cons p ps ih =>
    rw [runPages_cons]
    simp only [List.length_cons]
    omega

theorem runPages_errs_nil_iff (env : WorkerEnv) (blobSize : Int) :
    ∀ ps : List byteRange,
      (runPages env blobSize ps).2.1 = [] ↔ ∀ p ∈ ps, (processPage env blobSize p).2 = none := by
  intro ps
  induction ps with
  | nil => simp [runPages_nil]
  | cons p ps ih =>
    rw [runPages_cons]
    rcases hpp : (processPage env blobSize p).2 with _ | e
    · simp only [hpp]
      constructor
      · intro h q hq
        rcases List.mem_cons.mp hq with hh | hh
        · rw [hh]; exact hpp
        · exact (ih.mp h) q hh
      · intro h
        exact ih.mpr (fun q hq => h q (List.mem_cons_of_mem p hq))
    · simp only [hpp]
      constructor
      · intro h; cases h
      · intro h
        have := h p (List.mem_cons_self p ps)
        rw [hpp] at this
        cases this

theorem poolStep_running_pos {s t : PoolState} (h : PoolStep s t) : 1 ≤ s.running := by
  cases h with
  | work p rest r d => show 1 ≤ r + 1; omega
  | exitWorker r d => show 1 ≤ r + 1; omega

theorem pool_stuck_no_workers (pageList : List byteRange) :
    ∀ s, poolReachable (initPool pageList 0) s → s = initPool pageList 0 := by
  intro s h
  induction h with
  | refl => rfl
  | tail h1 h2 ih =>
    rw [ih] at h2
    have hx := poolStep_running_pos h2
    simp [initPool] at hx

theorem pool_drain (r d : Nat) : ∀ q : List byteRange,
    poolReachable { queue := q, running := r + 1, done := d }
      { queue := [], running := r + 1, done := d + q.length } := by
  intro q
  induction q generalizing d with
  | nil => simpa using Relation.ReflTransGen.refl
  | cons p rest ih =>
    have hstep : PoolStep { queue := p :: rest, running := r + 1, done := d }
        { queue := rest, running := r + 1, done := d + 1 } := PoolStep.work p rest r d
    have hrt := Relation.ReflTransGen.head hstep (ih (d + 1))
    simp only [List.length_cons]
    rw [show d + (rest.length + 1) = d + 1 + rest.length from by omega]
    exact hrt

theorem fScenario_size : fScenario.size = 10000 := rfl

theorem sbuScenario_size : sbuScenario.size = 0 := rfl

theorem envScenario_openErr : envScenario.openErr = none := rfl

theorem envScenario_statErr : envScenario.statErr = none := rfl

theorem envScenario_putPageBlobErr : envScenario.putPageBlobErr = none := rfl

theorem envScenario_worker : envScenario.worker = okWorkerEnv := rfl

theorem envScenario_file : envScenario.file = fScenario := rfl

theorem envScenario_sched :
    envScenario.sched = [{ offset := 0, length := 4096 }, { offset := 8192, length := 4096 }] := rfl

theorem runPages_scenario :
    runPages okWorkerEnv 10000
        [{ offset := 0, length := 4096 }, { offset := 8192, length := 4096 }] =
      ([RemoteOp.putPageUpdate 0 4095 4096, RemoteOp.putPageUpdate 8192 9999 1808], [], 2) := rfl

theorem pageUploadFromSource_scenario :
    pageUploadFromSource okWorkerEnv fScenario 10000
        [{ offset := 0, length := 4096 }, { offset := 8192, length := 4096 }] =
      ([RemoteOp.putPageUpdate 0 4095 4096, RemoteOp.putPageUpdate 8192 9999 1808],
        Except.ok ()) := by
  unfold pageUploadFromSource
  rw [split_fScenario]
  rfl

theorem uploadPageBlob_scenario :
    uploadPageBlob sbuScenario envScenario =
      ([RemoteOp.putPageBlob 10000, RemoteOp.putPageUpdate 0 4095 4096,
        RemoteOp.putPageUpdate 8192 9999 1808], Except.ok ()) := by
  unfold uploadPageBlob
  rw [sbuScenario_size, envScenario_openErr, envScenario_statErr,
    envScenario_putPageBlobErr, envScenario_worker, envScenario_file, envScenario_sched,
    fScenario_size, pageUploadFromSource_scenario]
  rfl

/-- C9: for every file size ≥ 0, the padded blob size computed by the scanner is the
smallest multiple of the page unit that is greater than or equal to the file size; in
particular a size already a multiple of the page unit is unchanged. -/
theorem claim_padded_size_least (fileSize : Int) (h : 0 ≤ fileSize) :
    minPageSize ∣ paddedBlobSize fileSize ∧
    fileSize ≤ paddedBlobSize fileSize ∧
    (∀ m : Int, minPageSize ∣ m → fileSize ≤ m → paddedBlobSize fileSize ≤ m) ∧
    (minPageSize ∣ fileSize → paddedBlobSize fileSize = fileSize) := by
  rw [paddedBlobSize, minPageSize_eq]
  refine ⟨?_, ?_, ?_, ?_⟩
  · split <;> omega
  · split <;> omega
  · intro m hm hfm
    split <;> omega
  · intro hdvd
    split <;> omega

/-- Witness for C9 at the concrete file size 10,000. -/
theorem claim_padded_size_least_witness :
    minPageSize ∣ paddedBlobSize 10000 ∧
    (10000 : Int) ≤ paddedBlobSize 10000 ∧
    (∀ m : Int, minPageSize ∣ m → (10000 : Int) ≤ m → paddedBlobSize 10000 ≤ m) ∧
    (minPageSize ∣ (10000 : Int) → paddedBlobSize 10000 = 10000) :=
  claim_padded_size_least 10000 (by norm_num)

/-- C6: concrete scenario — for the 10,000-byte file whose bytes in [4096, 8191] are
all zero and all other bytes non-zero, with page unit 4096 and maximum range size
4,194,304, the scanner returns exactly the two ranges {offset 0, length 4096} and
{offset 8192, length 4096}, and the padded blob size is 12,288. -/
theorem claim_scenario_two_ranges :
    storageBlobPageSplit fScenario 10000 =
      Except.ok [{ offset := 0, length := 4096 }, { offset := 8192, length := 4096 }] ∧
    paddedBlobSize 10000 = 12288 :=
  ⟨split_fScenario, paddedBlobSize_10000⟩

/-- C5: for every queued range processed by a worker, the transmitted boundaries are
start = range.offset and end = min(range.offset + range.length - 1, blobSize - 1),
with size = end - start + 1, so a write never extends past the logical end of the
target blob size. -/
theorem claim_worker_bounds (blobSize : Int) (page : byteRange) :
    workerStart page = page.offset ∧
    workerEnd blobSize page = min (page.offset + page.length - 1) (blobSize - 1) ∧
    workerSize blobSize page = workerEnd blobSize page - workerStart page + 1 ∧
    workerEnd blobSize page ≤ blobSize - 1 := by
  refine ⟨rfl, ?_, rfl, ?_⟩
  · rw [workerEnd]
    split <;> omega
  · rw [workerEnd]
    split <;> omega

/-- C2: for every source file and size, the union of the ranges returned by the
scanner covers exactly the page units containing at least one non-zero byte; an
all-zero file yields zero ranges; a fully non-zero file yields ranges whose total
length equals the padded blob size, split only where the maximum range size is
reached (every range has either the maximum length or ends at the padded size). -/
theorem claim_scanner_coverage (f : FileModel) (fileSize : Int)
    (hsz : 0 ≤ fileSize) (herr : ∀ p, f.readErr p = false) :
    ∃ rs, storageBlobPageSplit f fileSize = Except.ok rs ∧
      (∀ p, minPageSize ∣ p → 0 ≤ p → p < paddedBlobSize fileSize →
        (covered rs p ↔ ∃ j, 0 ≤ j ∧ j < minPageSize ∧ byteAt f (p + j) ≠ 0)) ∧
      ((∀ p, minPageSize ∣ p → 0 ≤ p → p < paddedBlobSize fileSize →
          pageAllZero f p = true) → rs = []) ∧
      ((∀ p, minPageSize ∣ p → 0 ≤ p → p < paddedBlobSize fileSize →
          pageAllZero f p = false) →
        sumLen rs = paddedBlobSize fileSize ∧
        ∀ r ∈ rs, r.length = maxPageSize ∨ r.offset + r.length = paddedBlobSize fileSize) := by
  obtain ⟨rs, h1, h2, h3, h4, h5, h6⟩ := storageBlobPageSplit_spec f fileSize hsz herr
  have hfe : (0 : Int) + ((paddedBlobSize fileSize / minPageSize).toNat : Int) * minPageSize =
      paddedBlobSize fileSize := by
    have := padded_fuel fileSize hsz
    omega
  refine ⟨rs, h1, ?_, ?_, ?_⟩
  · intro p hp h0 hpb
    rw [h5 p hp h0 hpb]
    exact pageAllZero_eq_false_iff f p
  · intro hall
    have hc : countNonzero f 0 (paddedBlobSize fileSize / minPageSize).toNat = 0 := by
      apply countNonzero_all_zero
      · rw [minPageSize_eq]; omega
      · intro p hp hp0 hpb
        rw [hfe] at hpb
        exact hall p hp hp0 hpb
    rw [hc] at h4
    exact sumLen_eq_zero_iff_nil rs (fun r hr => (h2 r hr).2.2.2.1) h4
  · intro hall
    refine ⟨?_, h6 hall⟩
    have hc : countNonzero f 0 (paddedBlobSize fileSize / minPageSize).toNat =
        ((paddedBlobSize fileSize / minPageSize).toNat : Int) * minPageSize := by
      apply countNonzero_all_nonzero
      · rw [minPageSize_eq]; omega
      · intro p hp hp0 hpb
        rw [hfe] at hpb
        exact hall p hp hp0 hpb
    rw [hc] at h4
    omega

/-- Witness for C2 at the concrete scenario file. -/
theorem claim_scanner_coverage_witness :
    ∃ rs, storageBlobPageSplit fScenario 10000 = Except.ok rs ∧
      (∀ p, minPageSize ∣ p → 0 ≤ p → p < paddedBlobSize 10000 →
        (covered rs p ↔ ∃ j, 0 ≤ j ∧ j < minPageSize ∧ byteAt fScenario (p + j) ≠ 0)) ∧
      ((∀ p, minPageSize ∣ p → 0 ≤ p → p < paddedBlobSize 10000 →
          pageAllZero fScenario p = true) → rs = []) ∧
      ((∀ p, minPageSize ∣ p → 0 ≤ p → p < paddedBlobSize 10000 →
          pageAllZero fScenario p = false) →
        sumLen rs = paddedBlobSize 10000 ∧
        ∀ r ∈ rs, r.length = maxPageSize ∨ r.offset + r.length = paddedBlobSize 10000) :=
  claim_scanner_coverage fScenario 10000 (by norm_num) (fun _ => rfl)

/-- C3: for every source file and size, the range list returned by the scanner has no
two overlapping ranges, every offset is a multiple of the page unit, every length is
positive and at most the maximum range size, and the offsets are strictly ascending. -/
theorem claim_scanner_ranges_wf (f : FileModel) (fileSize : Int)
    (hsz : 0 ≤ fileSize) (herr : ∀ p, f.readErr p = false) :
    ∃ rs, storageBlobPageSplit f fileSize = Except.ok rs ∧
      rs.Pairwise (fun a b => a.offset + a.length ≤ b.offset) ∧
      rs.Pairwise (fun a b => a.offset < b.offset) ∧
      ∀ r ∈ rs, minPageSize ∣ r.offset ∧ 0 < r.length ∧ r.length ≤ maxPageSize := by
  obtain ⟨rs, h1, h2, h3, h4, h5, h6⟩ := storageBlobPageSplit_spec f fileSize hsz herr
  refine ⟨rs, h1, h3, ?_, ?_⟩
  · refine h3.imp_of_mem ?_
    intro a b ha hb hab
    have := (h2 a ha).2.2.2.1
    omega
  · intro r hr
    obtain ⟨_, hd1, _, hpos, hmax, _⟩ := h2 r hr
    exact ⟨hd1, hpos, hmax⟩

/-- Witness for C3 at the concrete scenario file. -/
theorem claim_scanner_ranges_wf_witness :
    ∃ rs, storageBlobPageSplit fScenario 10000 = Except.ok rs ∧
      rs.Pairwise (fun a b => a.offset + a.length ≤ b.offset) ∧
      rs.Pairwise (fun a b => a.offset < b.offset) ∧
      ∀ r ∈ rs, minPageSize ∣ r.offset ∧ 0 < r.length ∧ r.length ≤ maxPageSize :=
  claim_scanner_ranges_wf fScenario 10000 (by norm_num) (fun _ => rfl)

/-- C8: if reading the page at offset `i` fails with a non-EOF error (and all earlier
page reads succeed), the scan aborts with an error carrying that offset, no range
list is produced, and the upload performs no remote writes. -/
theorem claim_scan_error_aborts (f : FileModel) (fileSize i : Int)
    (env : WorkerEnv) (sched : List byteRange)
    (hsz : 0 ≤ fileSize)
    (hi0 : 0 ≤ i) (hi4 : minPageSize ∣ i) (hilt : i < paddedBlobSize fileSize)
    (hfail : f.readErr i = true)
    (hbefore : ∀ p, minPageSize ∣ p → 0 ≤ p → p < i → f.readErr p = false) :
    storageBlobPageSplit f fileSize = Except.error i ∧
    pageUploadFromSource env f fileSize sched =
      ([], Except.error
        ("Error splitting source file into pages: Could not read chunk at " ++ toString i)) := by
  have hsplit : storageBlobPageSplit f fileSize = Except.error i := by
    rw [storageBlobPageSplit]
    exact splitLoop_error f (paddedBlobSize fileSize) _ 0 i { offset := 0, length := 0 }
      (by have := padded_fuel fileSize hsz; omega)
      (by rw [minPageSize_eq]; omega) hi4 hi0 hilt hfail hbefore
  refine ⟨hsplit, ?_⟩
  unfold pageUploadFromSource
  rw [hsplit]

/-- Witness for C8: a file whose very first page read fails. -/
theorem claim_scan_error_aborts_witness :
    storageBlobPageSplit fReadErr 5000 = Except.error 0 ∧
    pageUploadFromSource okWorkerEnv fReadErr 5000 [] =
      ([], Except.error
        ("Error splitting source file into pages: Could not read chunk at " ++ toString (0 : Int))) :=
  claim_scan_error_aborts fReadErr 5000 0 okWorkerEnv [] (by norm_num) (le_refl 0)
    ⟨0, by simp⟩ (by rw [paddedBlobSize, minPageSize_eq]; norm_num) rfl
    (fun p _ h1 h2 => absurd (lt_of_le_of_lt h1 h2) (lt_irrefl 0))

/-- C4: for every completed upload run (the pool drains a permutation of the scanned
range list), every queued range is processed and signals completion exactly once; the
coordinator returns success exactly when no worker reported an error, and otherwise
returns exactly one error — the first one sent on the error channel. -/
theorem claim_coordinator_first_error (env : WorkerEnv) (f : FileModel) (fileSize : Int)
    (sched pageList : List byteRange)
    (hsplit : storageBlobPageSplit f fileSize = Except.ok pageList)
    (hperm : sched.Perm pageList) :
    (runPages env fileSize sched).2.2 = pageList.length ∧
    ((runPages env fileSize sched).2.1 = [] ↔
      ∀ p ∈ pageList, (processPage env fileSize p).2 = none) ∧
    ((∀ p ∈ pageList, (processPage env fileSize p).2 = none) →
      pageUploadFromSource env f fileSize sched =
        ((runPages env fileSize sched).1, Except.ok ())) ∧
    (∀ e es, (runPages env fileSize sched).2.1 = e :: es →
      pageUploadFromSource env f fileSize sched =
        ((runPages env fileSize sched).1,
          Except.error ("Error while uploading source file: " ++ e))) := by
  have hiff : (runPages env fileSize sched).2.1 = [] ↔
      ∀ p ∈ pageList, (processPage env fileSize p).2 = none := by
    rw [runPages_errs_nil_iff]
    constructor
    · intro h p hp
      exact h p (hperm.mem_iff.mpr hp)
    · intro h p hp
      exact h p (hperm.mem_iff.mp hp)
  refine ⟨?_, hiff, ?_, ?_⟩
  · rw [runPages_done]
    exact hperm.length_eq
  · intro hall
    unfold pageUploadFromSource
    rw [hsplit, hiff.mpr hall]
  · intro e es he
    unfold pageUploadFromSource
    rw [hsplit, he]

/-- A worker environment in which exactly the write of the range at offset 0 fails. -/
def envOneFailure : WorkerEnv :=
  { sectionReadErr := fun _ => none
    putPageUpdateErr := fun p => if p.offset = 0 then some "boom" else none }

/-- Witness for C4 at the concrete scenario file with one injected write failure. -/
theorem claim_coordinator_first_error_witness :
    (runPages envOneFailure 10000
        [{ offset := 0, length := 4096 }, { offset := 8192, length := 4096 }]).2.2 =
      [({ offset := 0, length := 4096 } : byteRange), { offset := 8192, length := 4096 }].length ∧
    ((runPages envOneFailure 10000
        [{ offset := 0, length := 4096 }, { offset := 8192, length := 4096 }]).2.1 = [] ↔
      ∀ p ∈ [({ offset := 0, length := 4096 } : byteRange), { offset := 8192, length := 4096 }],
        (processPage envOneFailure 10000 p).2 = none) ∧
    ((∀ p ∈ [({ offset := 0, length := 4096 } : byteRange), { offset := 8192, length := 4096 }],
        (processPage envOneFailure 10000 p).2 = none) →
      pageUploadFromSource envOneFailure fScenario 10000
          [{ offset := 0, length := 4096 }, { offset := 8192, length := 4096 }] =
        ((runPages envOneFailure 10000
            [{ offset := 0, length := 4096 }, { offset := 8192, length := 4096 }]).1,
          Except.ok ())) ∧
    (∀ e es, (runPages envOneFailure 10000
        [{ offset := 0, length := 4096 }, { offset := 8192, length := 4096 }]).2.1 = e :: es →
      pageUploadFromSource envOneFailure fScenario 10000
          [{ offset := 0, length := 4096 }, { offset := 8192, length := 4096 }] =
        ((runPages envOneFailure 10000
            [{ offset := 0, length := 4096 }, { offset := 8192, length := 4096 }]).1,
          Except.error ("Error while uploading source file: " ++ e))) :=
  claim_coordinator_first_error envOneFailure fScenario 10000
    [{ offset := 0, length := 4096 }, { offset := 8192, length := 4096 }]
    [{ offset := 0, length := 4096 }, { offset := 8192, length := 4096 }]
    split_fScenario (List.Perm.refl _)

/-- C7: the creation dispatch validates before any remote call — a page-blob upload
with a source and an explicit non-zero size, a page blob with no source and size
zero, and an unrecognized blob type (with no copy-from-URL source) each return a
validation error with an empty remote-call trace. -/
theorem claim_create_validation (sbu : BlobUpload) (env : RemoteEnv) :
    (sbu.sourceUri = "" → toLowerStr sbu.blobType = "page" → sbu.source ≠ "" → sbu.size ≠ 0 →
      Create sbu env = ([], Except.error "`size` cannot be set for an uploaded page blob")) ∧
    (sbu.sourceUri = "" → toLowerStr sbu.blobType = "page" → sbu.source = "" → sbu.size = 0 →
      Create sbu env = ([], Except.error "`size` cannot be zero for a page blob")) ∧
    (sbu.sourceUri = "" → toLowerStr sbu.blobType ≠ "block" → toLowerStr sbu.blobType ≠ "page" →
      Create sbu env = ([], Except.error ("Unsupported Blob Type: " ++ toLowerStr sbu.blobType))) := by
  refine ⟨?_, ?_, ?_⟩
  · intro h1 h2 h3 h4
    unfold Create uploadPageBlob
    rw [h1, h2]
    rw [if_neg (by simp), if_neg (by decide), if_pos rfl, if_pos h3, if_pos h4]
  · intro h1 h2 h3 h4
    unfold Create createEmptyPageBlob
    rw [h1, h2]
    rw [if_neg (by simp), if_neg (by decide), if_pos rfl, if_neg (by simp [h3]), if_pos h4]
  · intro h1 h2 h3
    unfold Create
    rw [h1]
    rw [if_neg (by simp), if_neg h2, if_neg h3]

/-- A page-blob upload intent that illegally sets an explicit size together with a
source file. -/
def sbuBadSize : BlobUpload :=
  { accountName := "acc", blobName := "blob", containerName := "cont"
    blobType := "page", contentType := "t", metaData := [], parallelism := 1
    size := 5, source := "source.vhd", sourceUri := "" }

/-- A page-blob creation intent with no source and size zero. -/
def sbuZeroSize : BlobUpload :=
  { accountName := "acc", blobName := "blob", containerName := "cont"
    blobType := "page", contentType := "t", metaData := [], parallelism := 1
    size := 0, source := "", sourceUri := "" }

/-- An intent with an unrecognized blob type and no copy-from-URL source. -/
def sbuBadType : BlobUpload :=
  { accountName := "acc", blobName := "blob", containerName := "cont"
    blobType := "appendx", contentType := "t", metaData := [], parallelism := 1
    size := 0, source := "", sourceUri := "" }

/-- Witness for C7 at three concrete creation intents. -/
theorem claim_create_validation_witness :
    Create sbuBadSize envScenario =
      ([], Except.error "`size` cannot be set for an uploaded page blob") ∧
    Create sbuZeroSize envScenario =
      ([], Except.error "`size` cannot be zero for a page blob") ∧
    Create sbuBadType envScenario =
      ([], Except.error ("Unsupported Blob Type: " ++ toLowerStr sbuBadType.blobType)) :=
  ⟨(claim_create_validation sbuBadSize envScenario).1 rfl rfl (by decide) (by decide),
    (claim_create_validation sbuZeroSize envScenario).2.1 rfl rfl rfl rfl,
    (claim_create_validation sbuBadType envScenario).2.2 rfl (by decide) (by decide)⟩

/-- C1 (code-bug evidence): `uploadPageBlob` creates the remote page blob with
`BlobContentLengthBytes = fileSize` — 10,000 for the scenario file — not the padded
blob size 12,288 that the claim (and the scanner's own padding) requires, and the
final range write is clipped to end at byte 9,999 rather than 12,287, so the remote
blob is never sized to the padded size. -/
theorem claim_created_size_not_padded :
    uploadPageBlob sbuScenario envScenario =
      ([RemoteOp.putPageBlob 10000, RemoteOp.putPageUpdate 0 4095 4096,
        RemoteOp.putPageUpdate 8192 9999 1808], Except.ok ()) ∧
    paddedBlobSize 10000 = 12288 ∧
    (10000 : Int) ≠ 12288 ∧
    (9999 : Int) ≠ 12287 :=
  ⟨uploadPageBlob_scenario, paddedBlobSize_10000, by norm_num, by norm_num⟩

/-- C10: the coordinator's wait terminates only when the worker count
(Parallelism × NumCPU) is at least 1 or the scanner returned no ranges: with worker
count 0 and a non-empty range list no state satisfying the wait condition is ever
reachable, while with at least one worker (or an empty list) one is. -/
theorem claim_wait_termination (parallelism numCPU : Nat) (pageList : List byteRange) :
    (workerCount parallelism numCPU = 0 → pageList ≠ [] →
      ∀ s, poolReachable (initPool pageList (workerCount parallelism numCPU)) s →
        ¬ waitSatisfied pageList s) ∧
    (1 ≤ workerCount parallelism numCPU ∨ pageList = [] →
      ∃ s, poolReachable (initPool pageList (workerCount parallelism numCPU)) s ∧
        waitSatisfied pageList s) := by
  constructor
  · intro h0 hne s hs hw
    rw [h0] at hs
    have hs' := pool_stuck_no_workers pageList s hs
    rw [hs'] at hw
    have hlen : pageList.length = 0 := by
      simpa [waitSatisfied, initPool] using hw.symm
    exact hne (List.eq_nil_of_length_eq_zero hlen)
  · intro h
    rcases h with h1 | h1
    · obtain ⟨r, hr⟩ : ∃ r, workerCount parallelism numCPU = r + 1 :=
        ⟨workerCount parallelism numCPU - 1, by omega⟩
      rw [hr]
      exact ⟨{ queue := [], running := r + 1, done := 0 + pageList.length },
        pool_drain r 0 pageList, by simp [waitSatisfied]⟩
    · rw [h1]
      exact ⟨initPool [] (workerCount parallelism numCPU), Relation.ReflTransGen.refl,
        by simp [waitSatisfied, initPool]⟩

/-- Witness for C10: with Parallelism 0 and one range the initial state never
satisfies the wait; with Parallelism 1 and no ranges a satisfying state is reached. -/
theorem claim_wait_termination_witness :
    ¬ waitSatisfied [{ offset := (0 : Int), length := (4096 : Int) }]
        (initPool [{ offset := 0, length := 4096 }] (workerCount 0 4)) ∧
    ∃ s, poolReachable (initPool ([] : List byteRange) (workerCount 1 4)) s ∧
      waitSatisfied ([] : List byteRange) s :=
  ⟨(claim_wait_termination 0 4 [{ offset := 0, length := 4096 }]).1 rfl (by simp) _
      Relation.ReflTransGen.refl,
    (claim_wait_termination 1 4 []).2 (Or.inr rfl)⟩
